import Mathlib

/-!
Verification of the dstgo/tracker collection-and-query engine.

Shallow embedding of:
  * `internal/data/repo/lobby.go`   — the MongoDB snapshot store (`FindServers`,
    `RemoveServers`, `InsertManyServers`);
  * `internal/handler` (lobby handler) — `GetServersByPage`,
    `GetAllServersFromLobby`, `SyncLocalServers`, `ClearExpiredServers`,
    `processLobbyServer`.

Modelling conventions:
  * The document collection is a `List LobbyServer` in insertion order; the
    MongoDB `_id` of a document is its position in that list (ids are assigned
    monotonically at insert time, so insertion order and id order agree).
  * Machine integers (`int`, `int64` epoch milliseconds) are `Int`.
  * Fallible Go calls return `Except GoErr` or carry an `Option GoErr`
    component mirroring Go multiple-return `(value, error)` shapes.
  * The external collaborators (klei lobby listing client, geoip reader,
    platform display-name table from `pkg/lobbyapi`, which is not under `src/`)
    are passed as function parameters, exactly as `processLobbyServer` already
    receives `geoip` as an argument in the Go code.
  * MongoDB aggregation stages are modelled stage by stage; `$group` emits one
    output per distinct key, carrying the first document encountered for that
    key (`$first`) with the groups in first-occurrence order, and `$sort` on a
    field that no document carries compares all documents equal and leaves the
    order unchanged.
-/

/-- Go `error` values, modelled by their message string. -/
abbrev GoErr := String

/-- qmgo `ErrNoSuchDocuments`, returned by `Aggregate.One` when the pipeline
produces no document at all (in particular when the collection is empty). -/
def errNoSuchDocuments : GoErr := "no such documents"

/-- The MongoDB server error produced when a `$in` operand is not an array;
the Go driver encodes a nil `[]any` slice as BSON null, so
`Find(bson.M{"_id": bson.M{"$in": ids}})` with an empty `ids` fails. -/
def errInNeedsArray : GoErr := "$in needs an array"

/-- Result of the geoip lookup used by `processLobbyServer`:
`city.Continent.Code`, `city.Country.IsoCode`, `city.City.Names["en"]`. -/
structure GeoInfo where
  continent : String := ""
  area : String := ""
  city : String := ""
  deriving DecidableEq

/-- `lobbyapi.Server`: one raw server record returned by the klei lobby
listing endpoint (the fields that the tracker copies or filters on). -/
structure Server where
  rowId : String := ""
  steamClanId : String := ""
  name : String := ""
  address : String := ""
  port : Int := 0
  host : String := ""
  platform : Int := 0
  version : String := ""
  gameMode : String := ""
  intent : String := ""
  season : String := ""
  tags : String := ""
  maxConnections : Int := 0
  connected : Int := 0
  pvpEnabled : Bool := false
  hasPassword : Bool := false
  modEnabled : Bool := false
  isDedicated : Bool := false
  clientHosted : Bool := false
  allowNewPlayers : Bool := false
  serverPaused : Bool := false
  friendOnly : Bool := false
  clanOnly : Bool := false
  deriving DecidableEq

/-- `repo.LobbyServer`: one stored document.  The Go struct embeds
`lobbyapi.Server` inline; the embedding is flattened here, matching the BSON
document layout the queries run against. -/
structure LobbyServer where
  region : String := ""
  continent : String := ""
  area : String := ""
  city : String := ""
  platformName : String := ""
  tagNames : List String := []
  createdAt : Int := 0
  rowId : String := ""
  steamClanId : String := ""
  name : String := ""
  address : String := ""
  port : Int := 0
  host : String := ""
  platform : Int := 0
  version : String := ""
  gameMode : String := ""
  intent : String := ""
  season : String := ""
  tags : String := ""
  maxConnections : Int := 0
  connected : Int := 0
  pvpEnabled : Bool := false
  hasPassword : Bool := false
  modEnabled : Bool := false
  isDedicated : Bool := false
  clientHosted : Bool := false
  allowNewPlayers : Bool := false
  serverPaused : Bool := false
  friendOnly : Bool := false
  clanOnly : Bool := false
  deriving DecidableEq

/-- `types.PageResult[T]`. -/
structure PageResult (α : Type) where
  total : Int := 0
  list : List α := []
  deriving DecidableEq

/-- The BSON filter documents that `GetServersByPage` builds and `FindServers`
consumes: each optional entry is one key of the `queryM` map / `filter`
`bson.M`, absent keys impose no constraint. -/
structure BsonFilter where
  name : Option String := none
  address : Option String := none
  area : Option String := none
  intent : Option String := none
  gameMode : Option String := none
  pvpEnabled : Option Bool := none
  hasPassword : Option Bool := none
  modEnabled : Option Bool := none
  tagsIn : Option (List String) := none
  createdAt : Option Int := none
  deriving DecidableEq

/-- The empty `bson.M{}` filter. -/
def emptyBson : BsonFilter := {}

/-- Mongo `$regex` with the `i` option, modelled as case-insensitive substring
containment (patterns are treated as literal strings). -/
def regexMatchCI (pattern s : String) : Bool :=
  decide (pattern.toLower.data <:+: s.toLower.data)

/-- Whether a stored document satisfies every entry of a filter document
(`$match` semantics: all keys are ANDed; `tag_names` is an array field, so
`$in` succeeds when the document carries at least one of the listed tags). -/
def matchesFilter (f : BsonFilter) (d : LobbyServer) : Bool :=
  (match f.name with
   | none => true
   | some pat => regexMatchCI pat d.name) &&
  (match f.address with
   | none => true
   | some a => d.address == a) &&
  (match f.area with
   | none => true
   | some a => d.area == a) &&
  (match f.intent with
   | none => true
   | some a => d.intent == a) &&
  (match f.gameMode with
   | none => true
   | some a => d.gameMode == a) &&
  (match f.pvpEnabled with
   | none => true
   | some b => d.pvpEnabled == b) &&
  (match f.hasPassword with
   | none => true
   | some b => d.hasPassword == b) &&
  (match f.modEnabled with
   | none => true
   | some b => d.modEnabled == b) &&
  (match f.tagsIn with
   | none => true
   | some tags => d.tagNames.any (fun t => decide (t ∈ tags))) &&
  (match f.createdAt with
   | none => true
   | some ts => d.createdAt == ts)

/-- `filter["created_at"] = ts`: FindServers merges the selected snapshot
timestamp into the caller filter before the `$match` stage. -/
def mergeCreatedAt (f : BsonFilter) (ts : Int) : BsonFilter :=
  { f with createdAt := some ts }

/-- `$group` with `$first`: keep, for each key, the first element of the list
carrying that key, in first-occurrence order.  `seen` accumulates the keys
already emitted (empty at the top level). -/
def dedupByKey {α κ : Type} [DecidableEq κ] (key : α → κ) :
    List α → List κ → List α
  | [], _ => []
  | a :: rest, seen =>
    if key a ∈ seen then dedupByKey key rest seen
    else a :: dedupByKey key rest (key a :: seen)

/-- Pair every element with its position, starting at `n`. -/
def enumFromN {α : Type} (n : Nat) : List α → List (Nat × α)
  | [] => []
  | a :: l => (n, a) :: enumFromN (n + 1) l

/-- Attach MongoDB `_id`s to the stored documents: the id of a document is its
insertion position. -/
def withIds {α : Type} (store : List α) : List (Nat × α) := enumFromN 0 store

/-- First aggregation stage of `FindServers`:
`{$group: {_id: "$created_at"}}` — the distinct stored `created_at` values,
in first-occurrence order. -/
def groupCreatedAt (store : List LobbyServer) : List Int :=
  dedupByKey (fun t => t) (store.map (fun d => d.createdAt)) []

/-- Second stage: `{$sort: {"created": 1}}`.  No group document carries a
field named `created` (the group key is `_id`), so every document compares
equal and the stage leaves the order unchanged. -/
def sortByMissingCreated (l : List Int) : List Int := l

/-- The timestamp `FindServers` selects as "the latest inserted timestamp":
`Aggregate(...).One(&lastTs)` takes the head of the pipeline output, `none`
when the collection is empty. -/
def latestTs (store : List LobbyServer) : Option Int :=
  (sortByMissingCreated (groupCreatedAt store)).head?

/-- qmgo `Query.EstimatedCount`, used for the `total` of `FindServers` and the
remaining count of `RemoveServers`: it calls the driver
`EstimatedDocumentCount`, which counts the WHOLE collection and ignores the
filter that was passed to `Find`. -/
def estimatedCount (store : List LobbyServer) : Int := store.length

/-- `$skip ((page-1)*size)` followed by `$limit size`. -/
def pageOfPairs (page size : Int) (l : List (Nat × LobbyServer)) :
    List (Nat × LobbyServer) :=
  (l.drop ((page - 1) * size).toNat).take size.toNat

/-- The `$match` stage output of `FindServers`, with document ids attached:
the stored documents satisfying the merged filter, in insertion order. -/
def matchedPairs (store : List LobbyServer) (f : BsonFilter) (ts : Int) :
    List (Nat × LobbyServer) :=
  (withIds store).filter (fun p => matchesFilter (mergeCreatedAt f ts) p.2)

/-- The `$group {_id: "$row_id", object_id: {$first: "$_id"}}` stage output:
one representative (id, document) pair per distinct `row_id`, keeping the
first-inserted matched document of each `row_id`. -/
def repPairs (store : List LobbyServer) (f : BsonFilter) (ts : Int) :
    List (Nat × LobbyServer) :=
  dedupByKey (fun p : Nat × LobbyServer => p.2.rowId) (matchedPairs store f ts) []

/-- The deduplicated, insertion-ordered representative documents of the
selected snapshot under a filter (the group stage output, documents only). -/
def representatives (store : List LobbyServer) (f : BsonFilter) (ts : Int) :
    List LobbyServer :=
  (repPairs store f ts).map (fun p => p.2)

/-- The final `Find(bson.M{"_id": bson.M{"$in": ids}}).All`: all documents
whose id is listed, in natural (insertion) order. -/
def fetchByIds (store : List LobbyServer) (ids : List Nat) : List LobbyServer :=
  ((withIds store).filter (fun p => decide (p.1 ∈ ids))).map (fun p => p.2)

/-- `LobbyRepo.FindServers` (internal/data/repo/lobby.go:85-158).
  * defaults: `page<=0 → 1`, `size<=0 → 10`, `sort=="" → "name"` (the sort
    variable is never used afterwards);
  * selects a timestamp with the group/sort/One pipeline (`latestTs`); on an
    empty collection qmgo `One` returns `ErrNoSuchDocuments`, which is
    propagated — the `len(lastTs) == 0` empty-page branch of the Go code is
    unreachable, since `One` either fails or fills `lastTs`;
  * `total` is the qmgo `EstimatedCount` of the collection (the
    `created_at` filter built at line 125 is ignored by `EstimatedCount`);
  * match → group by `row_id` → skip → limit, then the representative ids are
    fetched with `$in`; when the page of ids is empty the Go code passes a nil
    slice and the `$in` query fails. -/
def findServers (store : List LobbyServer) (page size : Int) (sort : String)
    (filter : BsonFilter) : Except GoErr (PageResult LobbyServer) :=
  let page := if page ≤ 0 then 1 else page
  let size := if size ≤ 0 then 10 else size
  let _sort := if sort == "" then "name" else sort
  match latestTs store with
  | none => Except.error errNoSuchDocuments
  | some ts =>
    let total : Int := estimatedCount store
    let groups := repPairs store filter ts
    let pageGroups := pageOfPairs page size groups
    let ids := pageGroups.map (fun p => p.1)
    if ids.isEmpty then Except.error errInNeedsArray
    else Except.ok { total := total, list := fetchByIds store ids }

/-- `types.QueryLobbyServersOptions` (tri-state flags: `>0` requests `true`,
`<0` requests `false`, `0` leaves the flag unconstrained). -/
structure QueryLobbyServersOptions where
  name : String := ""
  address : String := ""
  area : String := ""
  intent : String := ""
  gameMode : String := ""
  pvpEnabled : Int := 0
  hasPassword : Int := 0
  modEnabled : Int := 0
  tags : String := ""
  page : Int := 0
  size : Int := 0
  sort : String := ""
  deriving DecidableEq

/-- The `queryM` map built by `LobbyMongoHandler.GetServersByPage`.  Note the
`has_password` entry: the Go code sets
`queryM["has_password"] = options.PvpEnabled > 0`, reading the PVP tri-state
instead of the password tri-state. -/
def buildQuery (o : QueryLobbyServersOptions) : BsonFilter :=
  { name := if o.name ≠ "" then some o.name else none
    address := if o.address ≠ "" then some o.address else none
    area := if o.area ≠ "" then some o.area else none
    intent := if o.intent ≠ "" then some o.intent else none
    gameMode := if o.gameMode ≠ "" then some o.gameMode else none
    pvpEnabled := if o.pvpEnabled ≠ 0 then some (decide (0 < o.pvpEnabled)) else none
    hasPassword := if o.hasPassword ≠ 0 then some (decide (0 < o.pvpEnabled)) else none
    modEnabled := if o.modEnabled ≠ 0 then some (decide (0 < o.modEnabled)) else none
    tagsIn := if o.tags ≠ "" then some (o.tags.splitOn ",") else none
    createdAt := none }

/-- `LobbyMongoHandler.GetServersByPage`: build `queryM` from the options and
delegate to `FindServers`.  (The Go code then maps each `repo.LobbyServer`
through `lobbyRepo2Resp`, a field-for-field copy into the response shape; the
copy renames fields and is omitted here.) -/
def getServersByPage (store : List LobbyServer)
    (o : QueryLobbyServersOptions) : Except GoErr (PageResult LobbyServer) :=
  findServers store o.page o.size o.sort (buildQuery o)

/-- The record list of a `FindServers` outcome (empty on error). -/
def pageListOf (r : Except GoErr (PageResult LobbyServer)) : List LobbyServer :=
  match r with
  | Except.ok res => res.list
  | Except.error _ => []

/-- The total of a `FindServers` outcome (`none` on error). -/
def pageTotalOf (r : Except GoErr (PageResult LobbyServer)) : Option Int :=
  match r with
  | Except.ok res => some res.total
  | Except.error _ => none

/-- Whether a `FindServers` outcome is a success. -/
def isOkPage (r : Except GoErr (PageResult LobbyServer)) : Bool :=
  match r with
  | Except.ok _ => true
  | Except.error _ => false

/- Concrete documents used by the closed evaluation theorems. -/

/-- A document of the older snapshot (timestamp 1). -/
def srvOld : LobbyServer := { rowId := "a", name := "alpha", createdAt := 1 }

/-- A document of the newer snapshot (timestamp 2). -/
def srvNew : LobbyServer := { rowId := "b", name := "beta", createdAt := 2 }

/-- A store holding two snapshots: the older one was inserted first. -/
def twoSnapshotStore : List LobbyServer := [srvOld, srvNew]

/-- C4: on an empty store, `FindServers` does NOT return an empty page —
qmgo `Aggregate.One` yields `ErrNoSuchDocuments` and the function propagates
it, for every page, size, sort key and filter; the Go branch that would
return `total=0` with no error is unreachable. -/
theorem C4_empty_store_returns_error (page size : Int) (sort : String)
    (filter : BsonFilter) :
    findServers [] page size sort filter = Except.error errNoSuchDocuments := by
  rfl

/-- C10: for every fixed store, page, size and filter, `FindServers` returns
identical results for every value of the `sort` argument — the defaulted sort
key is never used by the query pipeline. -/
theorem C10_sort_key_has_no_effect (store : List LobbyServer)
    (page size : Int) (sortA sortB : String) (filter : BsonFilter) :
    findServers store page size sortA filter
      = findServers store page size sortB filter := by
  rfl

/-- C1: `FindServers` does not select the maximum `created_at`.  On a store
whose two snapshots have timestamps 1 and 2 (maximum 2, attained by `srvNew`),
the group/sort/One pipeline selects 1 — the sort stage orders by a field named
`created` that no group document carries, so the first distinct timestamp in
insertion order wins — and the returned page consists of the record with
`created_at = 1`, which does not belong to the maximum snapshot. -/
theorem C1_findPage_uses_first_not_max_timestamp :
    latestTs twoSnapshotStore = some 1
    ∧ (∀ t ∈ twoSnapshotStore.map (fun d => d.createdAt), t ≤ 2)
    ∧ srvNew.createdAt = 2
    ∧ pageListOf (findServers twoSnapshotStore 1 10 "name" emptyBson) = [srvOld]
    ∧ srvOld.createdAt ≠ 2 := by
  decide

/-- C3: the `total` of `FindServers` is not the count of current-snapshot
documents.  On the two-snapshot store each snapshot holds exactly one
document, yet `total = 2`: qmgo `EstimatedCount` ignores the `created_at`
filter and counts the whole collection. -/
theorem C3_total_counts_whole_collection :
    pageTotalOf (findServers twoSnapshotStore 1 10 "name" emptyBson) = some 2
    ∧ (twoSnapshotStore.filter (fun d => d.createdAt == 1)).length = 1
    ∧ (twoSnapshotStore.filter (fun d => d.createdAt == 2)).length = 1 := by
  decide

/-- A stored document without a password. -/
def srvNoPassword : LobbyServer := { rowId := "x", name := "open", createdAt := 5 }

/-- Options requesting password-protected servers only (`hasPassword = 1`,
i.e. tri-state true) while leaving the PVP tri-state unset. -/
def optsWantPassword : QueryLobbyServersOptions :=
  { hasPassword := 1, page := 1, size := 10 }

/-- C2: the `has_password` filter is built from the wrong option.
`GetServersByPage` sets `queryM["has_password"] = options.PvpEnabled > 0`;
with `hasPassword = 1` (requesting `true`) and `pvpEnabled = 0` the filter
becomes `has_password = false`, and the returned page contains a record whose
`hasPassword` field is `false` — contradicting the claim that every returned
record matches the requested tri-state value. -/
theorem C2_hasPassword_filter_uses_pvp_value :
    optsWantPassword.hasPassword = 1
    ∧ (0 : Int) < optsWantPassword.hasPassword
    ∧ (buildQuery optsWantPassword).hasPassword = some false
    ∧ pageListOf (getServersByPage [srvNoPassword] optsWantPassword) = [srvNoPassword]
    ∧ srvNoPassword.hasPassword = false := by
  decide

/- Structural lemmas about the aggregation stages. -/

/-- The group stage output is a sublist of its input. -/
theorem dedupByKey_sublist {α κ : Type} [DecidableEq κ] (key : α → κ) :
    ∀ (l : List α) (seen : List κ), List.Sublist (dedupByKey key l seen) l := by
  intro l
  induction l with
  | nil => intro seen; simp [dedupByKey]
  | cons a rest ih =>
    intro seen
    rw [dedupByKey]
    by_cases h : key a ∈ seen
    · rw [if_pos h]
      exact (ih seen).cons a
    · rw [if_neg h]
      exact (ih (key a :: seen)).cons₂ a

/-- Every group-stage output element is the first input element bearing its
key, and its key was not already emitted. -/
theorem dedupByKey_first {α κ : Type} [DecidableEq κ] (key : α → κ) :
    ∀ (l : List α) (seen : List κ) (p : α), p ∈ dedupByKey key l seen →
      key p ∉ seen ∧ l.find? (fun x => decide (key x = key p)) = some p := by
  intro l
  induction l with
  | nil => intro seen p hp; simp [dedupByKey] at hp
  | cons a rest ih =>
    intro seen p hp
    rw [dedupByKey] at hp
    by_cases hseen : key a ∈ seen
    · rw [if_pos hseen] at hp
      obtain ⟨hns, hfind⟩ := ih seen p hp
      have hne : ¬ (key a = key p) := fun he => hns (he ▸ hseen)
      refine ⟨hns, ?_⟩
      rw [List.find?_cons_of_neg _ (by simpa using hne)]
      exact hfind
    · rw [if_neg hseen] at hp
      rw [List.mem_cons] at hp
      rcases hp with hp | hp
      · subst hp
        exact ⟨hseen, by rw [List.find?_cons_of_pos _ (by simp)]⟩
      · obtain ⟨hns, hfind⟩ := ih (key a :: seen) p hp
        have hne : ¬ (key a = key p) := by
          intro he
          exact hns (by simp [he])
        refine ⟨fun hmem => hns (List.mem_cons_of_mem _ hmem), ?_⟩
        rw [List.find?_cons_of_neg _ (by simpa using hne)]
        exact hfind

/-- The keys of the group stage output are pairwise distinct. -/
theorem dedupByKey_keys_nodup {α κ : Type} [DecidableEq κ] (key : α → κ) :
    ∀ (l : List α) (seen : List κ), ((dedupByKey key l seen).map key).Nodup := by
  intro l
  induction l with
  | nil => intro seen; simp [dedupByKey]
  | cons a rest ih =>
    intro seen
    rw [dedupByKey]
    by_cases hseen : key a ∈ seen
    · rw [if_pos hseen]
      exact ih seen
    · rw [if_neg hseen]
      rw [List.map_cons, List.nodup_cons]
      refine ⟨?_, ih (key a :: seen)⟩
      intro hmem
      obtain ⟨p, hp, hkey⟩ := List.mem_map.mp hmem
      exact (dedupByKey_first key rest (key a :: seen) p hp).1 (by simp [hkey])

/-- Positions attached by `enumFromN` start at `n`. -/
theorem enumFromN_fst_ge {α : Type} :
    ∀ (n : Nat) (l : List α) (p : Nat × α), p ∈ enumFromN n l → n ≤ p.1 := by
  intro n l
  induction l generalizing n with
  | nil => intro p hp; simp [enumFromN] at hp
  | cons a rest ih =>
    intro p hp
    rw [enumFromN, List.mem_cons] at hp
    rcases hp with hp | hp
    · subst hp; exact Nat.le_refl n
    · exact Nat.le_of_succ_le (ih (n + 1) p hp)

/-- The positions attached by `enumFromN` are pairwise distinct. -/
theorem enumFromN_fst_nodup {α : Type} :
    ∀ (n : Nat) (l : List α), ((enumFromN n l).map (fun p => p.1)).Nodup := by
  intro n l
  induction l generalizing n with
  | nil => simp [enumFromN]
  | cons a rest ih =>
    rw [enumFromN, List.map_cons, List.nodup_cons]
    refine ⟨?_, ih (n + 1)⟩
    intro hmem
    obtain ⟨p, hp, hkey⟩ := List.mem_map.mp hmem
    have := enumFromN_fst_ge (n + 1) rest p hp
    omega

/-- Filtering on the document and dropping the ids is the same as filtering
the raw store. -/
theorem enumFromN_filter_map_snd {α : Type} (q : α → Bool) :
    ∀ (n : Nat) (l : List α),
      ((enumFromN n l).filter (fun p => q p.2)).map (fun p => p.2) = l.filter q := by
  intro n l
  induction l generalizing n with
  | nil => simp [enumFromN]
  | cons a rest ih =>
    rw [enumFromN, List.filter_cons, List.filter_cons]
    cases hq : q a <;> simp [hq, ih (n + 1)]

/-- Finding on the documents of a pair list agrees with finding on the pairs. -/
theorem find?_map_snd {α β : Type} (q : β → Bool) :
    ∀ (l : List (α × β)),
      (l.map (fun p => p.2)).find? q
        = (l.find? (fun p => q p.2)).map (fun p => p.2) := by
  intro l
  induction l with
  | nil => simp
  | cons a rest ih =>
    cases hq : q a.2
    · rw [List.map_cons, List.find?_cons_of_neg _ (by simp [hq]),
        List.find?_cons_of_neg _ (by simp [hq])]
      exact ih
    · rw [List.map_cons, List.find?_cons_of_pos _ hq,
        List.find?_cons_of_pos _ (by simpa using hq)]
      simp

/-- Fetching a sublist of an id-tagged list with distinct ids by `$in` on the
collected ids returns exactly that sublist, in list order. -/
theorem filter_mem_ids_of_sublist {ν β : Type} [DecidableEq ν]
    {s L : List (ν × β)} (hs : List.Sublist s L) :
    (L.map (fun p => p.1)).Nodup →
      L.filter (fun p => decide (p.1 ∈ s.map (fun q => q.1))) = s := by
  induction hs with
  | slnil => intro _; simp
  | @cons s L' a h ih =>
    intro hnd
    rw [List.map_cons, List.nodup_cons] at hnd
    have hsub : s.map (fun q => q.1) ⊆ L'.map (fun q => q.1) :=
      (h.map (fun q => q.1)).subset
    have hna : a.1 ∉ s.map (fun q => q.1) := fun hmem => hnd.1 (hsub hmem)
    rw [List.filter_cons, if_neg (by simpa using hna)]
    exact ih hnd.2
  | @cons₂ s L' a h ih =>
    intro hnd
    rw [List.map_cons, List.nodup_cons] at hnd
    rw [List.filter_cons, if_pos (by simp)]
    congr 1
    rw [List.filter_congr (q := fun p => decide (p.1 ∈ s.map (fun q => q.1)))]
    · exact ih hnd.2
    · intro p hp
      have hne : p.1 ≠ a.1 := by
        intro he
        exact hnd.1 (he ▸ List.mem_map_of_mem (fun q => q.1) hp)
      simp [hne]

/-- Skip/limit output is a sublist of its input. -/
theorem pageOfPairs_sublist (page size : Int) (l : List (Nat × LobbyServer)) :
    List.Sublist (pageOfPairs page size l) l :=
  (List.take_sublist _ _).trans (List.drop_sublist _ _)

/-- The document ids carried by the store are pairwise distinct. -/
theorem withIds_fst_nodup (store : List LobbyServer) :
    ((withIds store).map (fun p => p.1)).Nodup :=
  enumFromN_fst_nodup 0 store

/-- The page of representative pairs is a sublist of the id-tagged store. -/
theorem pageOfPairs_sublist_withIds (store : List LobbyServer) (f : BsonFilter)
    (ts : Int) (page size : Int) :
    List.Sublist (pageOfPairs page size (repPairs store f ts)) (withIds store) := by
  have h1 : List.Sublist (repPairs store f ts) (matchedPairs store f ts) :=
    dedupByKey_sublist _ _ _
  have h2 : List.Sublist (matchedPairs store f ts) (withIds store) :=
    List.filter_sublist _
  exact (pageOfPairs_sublist page size _).trans (h1.trans h2)

/-- The final `$in` fetch returns exactly the documents of the selected page
of representatives, in insertion order. -/
theorem fetchByIds_pageOfPairs (store : List LobbyServer) (f : BsonFilter)
    (ts : Int) (page size : Int) :
    fetchByIds store ((pageOfPairs page size (repPairs store f ts)).map (fun p => p.1))
      = (pageOfPairs page size (repPairs store f ts)).map (fun p => p.2) := by
  unfold fetchByIds
  rw [filter_mem_ids_of_sublist (pageOfPairs_sublist_withIds store f ts page size)
    (withIds_fst_nodup store)]

/-- The matched documents, ids dropped, are the filtered store. -/
theorem matched_docs_eq (store : List LobbyServer) (f : BsonFilter) (ts : Int) :
    (matchedPairs store f ts).map (fun p => p.2)
      = store.filter (fun x => matchesFilter (mergeCreatedAt f ts) x) :=
  enumFromN_filter_map_snd (fun x => matchesFilter (mergeCreatedAt f ts) x) 0 store

/-- Shape of every successful `FindServers` call: the total is the full
collection count and the record list is the selected page of representative
documents (after page/size defaulting). -/
theorem findServers_ok_shape {store : List LobbyServer} {page size : Int}
    {sort : String} {f : BsonFilter} {ts : Int} {res : PageResult LobbyServer}
    (hts : latestTs store = some ts)
    (h : findServers store page size sort f = Except.ok res) :
    res.total = estimatedCount store
    ∧ res.list = (pageOfPairs (if page ≤ 0 then 1 else page)
        (if size ≤ 0 then 10 else size) (repPairs store f ts)).map (fun p => p.2) := by
  simp only [findServers, hts] at h
  set pg := pageOfPairs (if page ≤ 0 then 1 else page)
    (if size ≤ 0 then 10 else size) (repPairs store f ts) with hpg
  split at h
  · exact absurd h (by simp)
  · rw [Except.ok.injEq] at h
    subst h
    refine ⟨rfl, ?_⟩
    show fetchByIds store (pg.map (fun p => p.1)) = pg.map (fun p => p.2)
    rw [hpg]
    exact fetchByIds_pageOfPairs store f ts _ _

/-- C7: within the selected snapshot, `FindServers` returns at most one
document per `rowId` (no two returned records share a `rowId`), and each
returned document is the first-inserted matched document bearing its `rowId`
(so repeated identical calls — the function is deterministic — always return
that same earliest-inserted representative). -/
theorem C7_dedup_by_rowId_earliest_representative
    (store : List LobbyServer) (page size : Int) (sort : String)
    (f : BsonFilter) (ts : Int) (res : PageResult LobbyServer)
    (hts : latestTs store = some ts)
    (h : findServers store page size sort f = Except.ok res) :
    (res.list.map (fun d => d.rowId)).Nodup
    ∧ ∀ d ∈ res.list,
        (store.filter (fun x => matchesFilter (mergeCreatedAt f ts) x)).find?
          (fun x => decide (x.rowId = d.rowId)) = some d := by
  obtain ⟨_, hlist⟩ := findServers_ok_shape hts h
  constructor
  · rw [hlist, List.map_map]
    have h1 : ((repPairs store f ts).map (fun p => p.2.rowId)).Nodup :=
      dedupByKey_keys_nodup _ _ _
    have h2 := (pageOfPairs_sublist (if page ≤ 0 then 1 else page)
      (if size ≤ 0 then 10 else size) (repPairs store f ts)).map
      (fun p : Nat × LobbyServer => p.2.rowId)
    exact h1.sublist h2
  · intro d hd
    rw [hlist] at hd
    obtain ⟨p, hp, rfl⟩ := List.mem_map.mp hd
    have hpmem : p ∈ repPairs store f ts :=
      (pageOfPairs_sublist _ _ _).subset hp
    have hfirst := dedupByKey_first (fun p : Nat × LobbyServer => p.2.rowId)
      (matchedPairs store f ts) [] p hpmem
    have hstep : ((matchedPairs store f ts).find?
        (fun x => decide (x.2.rowId = p.2.rowId))).map (fun r => r.2)
          = some p.2 := by
      rw [hfirst.2]
      rfl
    have hmapped : ((matchedPairs store f ts).map (fun r => r.2)).find?
        (fun x => decide (x.rowId = p.2.rowId))
          = ((matchedPairs store f ts).find?
            (fun x => decide (x.2.rowId = p.2.rowId))).map (fun r => r.2) :=
      find?_map_snd _ _
    rw [← matched_docs_eq store f ts, hmapped, hstep]

/- The concrete scenario of the spec: four records of one snapshot, two of
which share rowId 42. -/

/-- First listing of the scenario snapshot. -/
def sRow1 : LobbyServer := { rowId := "1", name := "n1", createdAt := 9 }

/-- Second listing: first occurrence of the duplicated rowId 42. -/
def sRow42a : LobbyServer := { rowId := "42", name := "n2", createdAt := 9 }

/-- Third listing. -/
def sRow2 : LobbyServer := { rowId := "2", name := "n3", createdAt := 9 }

/-- Fourth listing: second occurrence of rowId 42. -/
def sRow42b : LobbyServer := { rowId := "42", name := "n4", createdAt := 9 }

/-- The scenario store: one snapshot, four listings, three logical servers. -/
def storeFour : List LobbyServer := [sRow1, sRow42a, sRow2, sRow42b]

/-- The page `FindServers` returns on the scenario store: raw total 4,
three representative records. -/
def resFour : PageResult LobbyServer := { total := 4, list := [sRow1, sRow42a, sRow2] }

/-- Witness for C7: the scenario store satisfies both hypotheses, and the
conclusion holds at it. -/
theorem C7_dedup_witness :
    (latestTs storeFour = some 9
      ∧ findServers storeFour 1 10 "name" emptyBson = Except.ok resFour)
    ∧ ((resFour.list.map (fun d => d.rowId)).Nodup
      ∧ ∀ d ∈ resFour.list,
          (storeFour.filter (fun x => matchesFilter (mergeCreatedAt emptyBson 9) x)).find?
            (fun x => decide (x.rowId = d.rowId)) = some d) :=
  ⟨⟨rfl, rfl⟩,
    C7_dedup_by_rowId_earliest_representative storeFour 1 10 "name" emptyBson 9
      resFour rfl rfl⟩

/-- Generic form of the `$in` fetch lemma: fetching the ids of any sublist of
the id-tagged store returns the documents of that sublist, in order. -/
theorem fetchByIds_sub (store : List LobbyServer) (pg : List (Nat × LobbyServer))
    (hsub : List.Sublist pg (withIds store)) :
    fetchByIds store (pg.map (fun p => p.1)) = pg.map (fun p => p.2) := by
  unfold fetchByIds
  rw [filter_mem_ids_of_sublist hsub (withIds_fst_nodup store)]

/-- Number of pages needed to cover `D` records at page size `S`
(`⌈D/S⌉` as natural division). -/
def ceilPages (D S : Nat) : Nat := (D + S - 1) / S

/-- `⌈D/S⌉` pages of size `S` cover all `D` records. -/
theorem le_ceil_mul (S D : Nat) (hS : 0 < S) : D ≤ ((D + S - 1) / S) * S := by
  rcases Nat.eq_zero_or_pos D with hD | hD
  · simp [hD]
  · by_contra hcon
    push_neg at hcon
    have h2 : ((D + S - 1) / S) * S + S ≤ D + S - 1 := by
      revert hcon
      generalize ((D + S - 1) / S) * S = a
      intro hcon
      omega
    have h1 : ((D + S - 1) / S + 1) * S ≤ D + S - 1 := by
      rw [Nat.succ_mul]
      exact h2
    have h3 : (D + S - 1) / S + 1 ≤ (D + S - 1) / S :=
      (Nat.le_div_iff_mul_le hS).mpr h1
    omega

/-- Every page index below `⌈D/S⌉` starts strictly inside the record list. -/
theorem mul_lt_of_lt_ceil {S D i : Nat} (hS : 0 < S)
    (hi : i < (D + S - 1) / S) : i * S < D := by
  have h1 : (i + 1) * S ≤ D + S - 1 := (Nat.le_div_iff_mul_le hS).mp hi
  rw [Nat.succ_mul] at h1
  revert h1
  generalize i * S = a
  intro h1
  omega

/-- Concatenating the size-`S` chunks of a list reconstructs the list. -/
theorem flatten_chunks {α : Type} (S : Nat) :
    ∀ (k : Nat) (l : List α), l.length ≤ k * S →
      ((List.range k).map (fun i => (l.drop (i * S)).take S)).flatten = l := by
  intro k
  induction k with
  | zero =>
    intro l hl
    have hnil : l = [] := List.eq_nil_of_length_eq_zero (Nat.le_zero.mp (by simpa using hl))
    subst hnil
    simp
  | succ k ih =>
    intro l hl
    simp only [List.range_succ_eq_map, List.map_cons, List.map_map,
      List.flatten_cons, Nat.zero_mul, List.drop_zero]
    have htail : (List.range k).map
          ((fun i => (l.drop (i * S)).take S) ∘ Nat.succ)
        = (List.range k).map (fun i => ((l.drop S).drop (i * S)).take S) := by
      apply List.map_congr_left
      intro i _
      show (l.drop ((i + 1) * S)).take S = ((l.drop S).drop (i * S)).take S
      rw [List.drop_drop]
      congr 1
      rw [Nat.succ_mul, Nat.add_comm]
    rw [htail]
    rw [ih (l.drop S) (by
      rw [List.length_drop]
      rw [Nat.succ_mul] at hl
      revert hl
      generalize k * S = a
      intro hl
      omega)]
    exact List.take_append_drop S l

/-- Shape of one in-range page request: page `i+1` of size `S` succeeds and
returns the `i`-th size-`S` chunk of the deduplicated, insertion-ordered
representative set. -/
theorem findServers_page_eq (store : List LobbyServer) (f : BsonFilter) (ts : Int)
    (S i : Nat) (hS : 0 < S) (hts : latestTs store = some ts)
    (hlt : i * S < (repPairs store f ts).length) :
    findServers store ((i : Int) + 1) (S : Int) "name" f
      = Except.ok
          { total := estimatedCount store,
            list := ((representatives store f ts).drop (i * S)).take S } := by
  have hp1 : ¬ ((i : Int) + 1 ≤ 0) := by omega
  have hs1 : ¬ ((S : Int) ≤ 0) := by omega
  have hpage : pageOfPairs ((i : Int) + 1) (S : Int) (repPairs store f ts)
      = ((repPairs store f ts).drop (i * S)).take S := by
    unfold pageOfPairs
    have harg : (((i : Int) + 1 - 1) * (S : Int)).toNat = i * S := by
      have hcast : ((i : Int) + 1 - 1) * (S : Int) = ((i * S : Nat) : Int) := by
        push_cast
        ring
      rw [hcast, Int.toNat_natCast]
    rw [harg, Int.toNat_natCast]
  simp only [findServers, hts, if_neg hp1, if_neg hs1]
  rw [hpage]
  have hsub : List.Sublist (((repPairs store f ts).drop (i * S)).take S)
      (withIds store) := by
    have h1 : List.Sublist (((repPairs store f ts).drop (i * S)).take S)
        (repPairs store f ts) :=
      (List.take_sublist _ _).trans (List.drop_sublist _ _)
    have h2 : List.Sublist (repPairs store f ts) (matchedPairs store f ts) :=
      dedupByKey_sublist _ _ _
    exact h1.trans (h2.trans (List.filter_sublist _))
  have hne : (((repPairs store f ts).drop (i * S)).take S).map (fun p => p.1) ≠ [] := by
    intro hnil
    have hlen0 := congrArg List.length hnil
    rw [List.length_map, List.length_take, List.length_drop] at hlen0
    simp only [List.length_nil] at hlen0
    revert hlt hlen0
    generalize i * S = a
    intro hlt hlen0
    omega
  rw [if_neg (by simpa [List.isEmpty_iff] using hne)]
  have hfetch : fetchByIds store
        ((((repPairs store f ts).drop (i * S)).take S).map (fun p => p.1))
      = ((representatives store f ts).drop (i * S)).take S := by
    rw [fetchByIds_sub store _ hsub, List.map_take, List.map_drop]
    rfl
  rw [hfetch]

/-- C8: the pages `1 .. ⌈D/S⌉` of size `S` all succeed, and their
concatenation is exactly the deduplicated, insertion-ordered representative
set of the selected snapshot — no record missing, none repeated. -/
theorem C8_pagination_reconstructs_representatives
    (store : List LobbyServer) (f : BsonFilter) (S : Nat) (ts : Int)
    (hS : 0 < S) (hts : latestTs store = some ts) :
    (∀ i : Nat, i < ceilPages (representatives store f ts).length S →
        isOkPage (findServers store ((i : Int) + 1) (S : Int) "name" f) = true)
    ∧ ((List.range (ceilPages (representatives store f ts).length S)).map
        (fun i : Nat => pageListOf (findServers store ((i : Int) + 1) (S : Int) "name" f))).flatten
      = representatives store f ts := by
  have hlen : (representatives store f ts).length = (repPairs store f ts).length :=
    List.length_map _ _
  constructor
  · intro i hi
    have hlt : i * S < (repPairs store f ts).length := by
      rw [← hlen]
      exact mul_lt_of_lt_ceil hS hi
    rw [findServers_page_eq store f ts S i hS hts hlt]
    rfl
  · have hchunks : ∀ i ∈ List.range (ceilPages (representatives store f ts).length S),
        pageListOf (findServers store ((i : Int) + 1) (S : Int) "name" f)
          = ((representatives store f ts).drop (i * S)).take S := by
      intro i hi
      rw [List.mem_range] at hi
      have hlt : i * S < (repPairs store f ts).length := by
        rw [← hlen]
        exact mul_lt_of_lt_ceil hS hi
      rw [findServers_page_eq store f ts S i hS hts hlt]
      rfl
    rw [List.map_congr_left hchunks]
    exact flatten_chunks S _ _ (le_ceil_mul S _ hS)

/-- Witness for C8: on the scenario store with page size 2 the two pages
reconstruct the three representatives. -/
theorem C8_pagination_witness :
    ((0 : Nat) < 2 ∧ latestTs storeFour = some 9)
    ∧ ((∀ i : Nat, i < ceilPages (representatives storeFour emptyBson 9).length 2 →
          isOkPage (findServers storeFour ((i : Int) + 1) ((2 : Nat) : Int) "name" emptyBson) = true)
      ∧ ((List.range (ceilPages (representatives storeFour emptyBson 9).length 2)).map
          (fun i : Nat => pageListOf (findServers storeFour ((i : Int) + 1) ((2 : Nat) : Int) "name" emptyBson))).flatten
        = representatives storeFour emptyBson 9) :=
  ⟨⟨by decide, rfl⟩,
    C8_pagination_reconstructs_representatives storeFour emptyBson 2 9 (by decide) rfl⟩

/- Collector and sync orchestrator (internal/handler lobby handler). -/

/-- `processLobbyServer` (handler): enrich one batch of raw listings.  For
each record it attaches the search region and the shared snapshot timestamp,
parses the comma-delimited `Tags` into `TagNames` (empty string yields the
empty list), resolves geolocation — the first lookup failure fails the whole
batch — and derives the display platform name.  `pdn` stands for
`lobbyapi.PlatformDisplayName` and `geoip` for the geoip2 city lookup, both
passed as parameters (the Go function already takes `geoip` as an argument;
`pkg/lobbyapi` is outside `src/`). -/
def processLobbyServer (pdn : String → Int → String)
    (geoip : String → Except GoErr GeoInfo) (region : String) (ts : Int) :
    List Server → Except GoErr (List LobbyServer)
  | [] => Except.ok []
  | server :: rest =>
    match geoip server.address with
    | Except.error e => Except.error e
    | Except.ok geo =>
      let s : LobbyServer :=
        { region := region
          createdAt := ts
          tagNames := if server.tags ≠ "" then server.tags.splitOn "," else []
          continent := geo.continent
          area := geo.area
          city := geo.city
          platformName := pdn region server.platform
          rowId := server.rowId
          steamClanId := server.steamClanId
          name := server.name
          address := server.address
          port := server.port
          host := server.host
          platform := server.platform
          version := server.version
          gameMode := server.gameMode
          intent := server.intent
          season := server.season
          tags := server.tags
          maxConnections := server.maxConnections
          connected := server.connected
          pvpEnabled := server.pvpEnabled
          hasPassword := server.hasPassword
          modEnabled := server.modEnabled
          isDedicated := server.isDedicated
          clientHosted := server.clientHosted
          allowNewPlayers := server.allowNewPlayers
          serverPaused := server.serverPaused
          friendOnly := server.friendOnly
          clanOnly := server.clanOnly }
      match processLobbyServer pdn geoip region ts rest with
      | Except.error e => Except.error e
      | Except.ok others => Except.ok (s :: others)

/-- One fan-out unit of `GetAllServersFromLobby`: list the servers of one
(region, platform) pair and, when the list is non-empty, enrich it. -/
def unitWork (lobby : String → String → Except GoErr (List Server))
    (pdn : String → Int → String) (geoip : String → Except GoErr GeoInfo)
    (ts : Int) (rp : String × String) : Except GoErr (List LobbyServer) :=
  match lobby rp.1 rp.2 with
  | Except.error e => Except.error e
  | Except.ok servers =>
    if servers.isEmpty then Except.ok []
    else processLobbyServer pdn geoip rp.1 ts servers

/-- The (region, platform) pairs of the nested fan-out loops, in launch
order. -/
def pairsOf (regions : List String) (platforms : List String) :
    List (String × String) :=
  regions.flatMap (fun r => platforms.map (fun p => (r, p)))

/-- The errgroup fan-out, modelled sequentially in launch order: the first
error cancels the run and is returned; on success the batches are merged into
one collection (the Go code appends under a mutex; no batch is lost or
duplicated). -/
def collectUnits (f : String × String → Except GoErr (List LobbyServer)) :
    List (String × String) → Except GoErr (List LobbyServer)
  | [] => Except.ok []
  | rp :: rest =>
    match f rp with
    | Except.error e => Except.error e
    | Except.ok batch =>
      match collectUnits f rest with
      | Except.error e => Except.error e
      | Except.ok acc => Except.ok (batch ++ acc)

/-- `GetAllServersFromLobby`: fetch the capable regions (failure aborts),
take one shared snapshot timestamp `ts` (`time.Now().UnixMilli()`, modelled
as a parameter, taken once before any unit is launched), fan out over all
(region, platform) pairs, and return either the merged record list or
`(nil, err)` on the first unit error.  `platforms` stands for the fixed
`lobbyapi.ExplicitPlatforms` list. -/
def getAllServersFromLobby (regions : Except GoErr (List String))
    (lobby : String → String → Except GoErr (List Server))
    (pdn : String → Int → String) (geoip : String → Except GoErr GeoInfo)
    (platforms : List String) (ts : Int) :
    List LobbyServer × Option GoErr :=
  match regions with
  | Except.error e => ([], some e)
  | Except.ok rs =>
    match collectUnits (unitWork lobby pdn geoip ts) (pairsOf rs platforms) with
    | Except.error e => ([], some e)
    | Except.ok servers => (servers, none)

/-- `LobbyRepo.InsertManyServers`: append-only bulk insert returning the
inserted count. -/
def insertManyServers (store : List LobbyServer) (servers : List LobbyServer) :
    Int × List LobbyServer :=
  ((servers.length : Int), store ++ servers)

/-- `SyncLocalServers`: collect then insert; the first failure of either
stage is propagated and nothing is persisted (result: inserted count, store
after the cycle, error). -/
def syncLocalServers (store : List LobbyServer)
    (regions : Except GoErr (List String))
    (lobby : String → String → Except GoErr (List Server))
    (pdn : String → Int → String) (geoip : String → Except GoErr GeoInfo)
    (platforms : List String) (ts : Int) :
    Int × List LobbyServer × Option GoErr :=
  match getAllServersFromLobby regions lobby pdn geoip platforms ts with
  | (_, some e) => (0, store, some e)
  | (servers, none) =>
    let (inserted, newStore) := insertManyServers store servers
    (inserted, newStore, none)

/-- Whether a unit outcome is an error. -/
def isErr {ε α : Type} (r : Except ε α) : Bool :=
  match r with
  | Except.error _ => true
  | Except.ok _ => false

/-- The fan-out returns the error of the first failing unit, and no records. -/
theorem collectUnits_first_error
    (f : String × String → Except GoErr (List LobbyServer)) :
    ∀ (l : List (String × String)),
      (∃ rp ∈ l, isErr (f rp) = true) →
      ∃ rp₀ e, l.find? (fun rp => isErr (f rp)) = some rp₀
        ∧ f rp₀ = Except.error e
        ∧ collectUnits f l = Except.error e := by
  intro l
  induction l with
  | nil => intro hfail; simp at hfail
  | cons rp rest ih =>
    intro hfail
    cases hfp : f rp with
    | error e =>
      refine ⟨rp, e, ?_, hfp, ?_⟩
      · rw [List.find?_cons_of_pos _ (by simp [isErr, hfp])]
      · rw [collectUnits, hfp]
    | ok batch =>
      have hrest : ∃ rp ∈ rest, isErr (f rp) = true := by
        rcases hfail with ⟨rq, hrq, herr⟩
        rw [List.mem_cons] at hrq
        rcases hrq with hrq | hrq
        · subst hrq
          rw [hfp] at herr
          simp [isErr] at herr
        · exact ⟨rq, hrq, herr⟩
      obtain ⟨rp₀, e, hfind, hfe, hcoll⟩ := ih hrest
      refine ⟨rp₀, e, ?_, hfe, ?_⟩
      · rw [List.find?_cons_of_neg _ (by simp [isErr, hfp])]
        exact hfind
      · rw [collectUnits, hfp, hcoll]

/-- C5: if any fan-out unit fails, `GetAllServersFromLobby` returns the first
failing unit error together with a nil record list (the successful sibling
batches are discarded), and the subsequent `SyncLocalServers` persists zero
records: the store is unchanged and the reported inserted count is 0. -/
theorem C5_first_unit_error_discards_partial_results
    (rs platforms : List String)
    (lobby : String → String → Except GoErr (List Server))
    (pdn : String → Int → String) (geoip : String → Except GoErr GeoInfo)
    (ts : Int) (store : List LobbyServer)
    (hfail : ∃ rp ∈ pairsOf rs platforms,
        isErr (unitWork lobby pdn geoip ts rp) = true) :
    ∃ rp₀ e,
      (pairsOf rs platforms).find?
          (fun rp => isErr (unitWork lobby pdn geoip ts rp)) = some rp₀
      ∧ unitWork lobby pdn geoip ts rp₀ = Except.error e
      ∧ getAllServersFromLobby (Except.ok rs) lobby pdn geoip platforms ts
          = ([], some e)
      ∧ syncLocalServers store (Except.ok rs) lobby pdn geoip platforms ts
          = (0, store, some e) := by
  obtain ⟨rp₀, e, hfind, hfe, hcoll⟩ :=
    collectUnits_first_error (unitWork lobby pdn geoip ts) (pairsOf rs platforms) hfail
  refine ⟨rp₀, e, hfind, hfe, ?_, ?_⟩
  · rw [getAllServersFromLobby, hcoll]
  · rw [syncLocalServers, getAllServersFromLobby, hcoll]

/-- A listing client whose every call fails. -/
def lobbyDown : String → String → Except GoErr (List Server) :=
  fun _ _ => Except.error "upstream unavailable"

/-- A platform display-name table returning the empty label. -/
def pdnEmpty : String → Int → String := fun _ _ => ""

/-- A geoip lookup that resolves every address to one fixed location. -/
def geoFixed : String → Except GoErr GeoInfo :=
  fun _ => Except.ok { continent := "EU", area := "DE", city := "Berlin" }

/-- Witness for C5: one region, one platform, listing call down. -/
theorem C5_first_unit_error_witness :
    (∃ rp ∈ pairsOf ["US"] ["Steam"],
        isErr (unitWork lobbyDown pdnEmpty geoFixed 7 rp) = true)
    ∧ ∃ rp₀ e,
        (pairsOf ["US"] ["Steam"]).find?
            (fun rp => isErr (unitWork lobbyDown pdnEmpty geoFixed 7 rp)) = some rp₀
        ∧ unitWork lobbyDown pdnEmpty geoFixed 7 rp₀ = Except.error e
        ∧ getAllServersFromLobby (Except.ok ["US"]) lobbyDown pdnEmpty geoFixed ["Steam"] 7
            = ([], some e)
        ∧ syncLocalServers [] (Except.ok ["US"]) lobbyDown pdnEmpty geoFixed ["Steam"] 7
            = (0, [], some e) :=
  ⟨by decide,
    C5_first_unit_error_discards_partial_results ["US"] ["Steam"] lobbyDown
      pdnEmpty geoFixed 7 [] (by decide)⟩

/-- Every record a successful enrichment pass produces carries the shared
snapshot timestamp. -/
theorem processLobbyServer_createdAt
    (pdn : String → Int → String) (geoip : String → Except GoErr GeoInfo)
    (region : String) (ts : Int) :
    ∀ (l : List Server) (out : List LobbyServer),
      processLobbyServer pdn geoip region ts l = Except.ok out →
      ∀ r ∈ out, r.createdAt = ts := by
  intro l
  induction l with
  | nil =>
    intro out hout r hr
    rw [processLobbyServer] at hout
    rw [Except.ok.injEq] at hout
    subst hout
    simp at hr
  | cons server rest ih =>
    intro out hout r hr
    rw [processLobbyServer] at hout
    cases hgeo : geoip server.address with
    | error e => rw [hgeo] at hout; exact absurd hout (by simp)
    | ok geo =>
      rw [hgeo] at hout
      cases hrest : processLobbyServer pdn geoip region ts rest with
      | error e => rw [hrest] at hout; exact absurd hout (by simp)
      | ok others =>
        rw [hrest] at hout
        rw [Except.ok.injEq] at hout
        subst hout
        rw [List.mem_cons] at hr
        rcases hr with hr | hr
        · subst hr; rfl
        · exact ih others hrest r hr

/-- Every record a successful fan-out unit produces carries the shared
snapshot timestamp. -/
theorem unitWork_createdAt
    (lobby : String → String → Except GoErr (List Server))
    (pdn : String → Int → String) (geoip : String → Except GoErr GeoInfo)
    (ts : Int) (rp : String × String) (out : List LobbyServer)
    (hout : unitWork lobby pdn geoip ts rp = Except.ok out) :
    ∀ r ∈ out, r.createdAt = ts := by
  rw [unitWork] at hout
  cases hl : lobby rp.1 rp.2 with
  | error e =>
    simp only [hl] at hout
    exact absurd hout (by simp)
  | ok servers =>
    simp only [hl] at hout
    by_cases hemp : servers.isEmpty
    · rw [if_pos hemp, Except.ok.injEq] at hout
      subst hout
      simp
    · rw [if_neg hemp] at hout
      exact processLobbyServer_createdAt pdn geoip rp.1 ts servers out hout

/-- Every record a successful fan-out run merges carries the shared snapshot
timestamp. -/
theorem collectUnits_createdAt {ts : Int}
    (f : String × String → Except GoErr (List LobbyServer))
    (hf : ∀ rp out, f rp = Except.ok out → ∀ r ∈ out, r.createdAt = ts) :
    ∀ (l : List (String × String)) (out : List LobbyServer),
      collectUnits f l = Except.ok out → ∀ r ∈ out, r.createdAt = ts := by
  intro l
  induction l with
  | nil =>
    intro out hout r hr
    rw [collectUnits, Except.ok.injEq] at hout
    subst hout
    simp at hr
  | cons rp rest ih =>
    intro out hout r hr
    rw [collectUnits] at hout
    cases hfp : f rp with
    | error e => rw [hfp] at hout; exact absurd hout (by simp)
    | ok batch =>
      rw [hfp] at hout
      cases hrest : collectUnits f rest with
      | error e => rw [hrest] at hout; exact absurd hout (by simp)
      | ok acc =>
        rw [hrest] at hout
        rw [Except.ok.injEq] at hout
        subst hout
        rw [List.mem_append] at hr
        rcases hr with hr | hr
        · exact hf rp batch hfp r hr
        · exact ih acc hrest r hr

/-- C6: every record of a successful collect run carries the one snapshot
timestamp taken before fan-out, and a successful sync appends exactly those
records to the store — so all records inserted in one cycle share that
timestamp. -/
theorem C6_collect_records_share_snapshot_timestamp
    (regions : Except GoErr (List String))
    (lobby : String → String → Except GoErr (List Server))
    (pdn : String → Int → String) (geoip : String → Except GoErr GeoInfo)
    (platforms : List String) (ts : Int) (servers : List LobbyServer)
    (h : getAllServersFromLobby regions lobby pdn geoip platforms ts
        = (servers, none)) :
    (∀ r ∈ servers, r.createdAt = ts)
    ∧ ∀ store : List LobbyServer,
        syncLocalServers store regions lobby pdn geoip platforms ts
          = ((servers.length : Int), store ++ servers, none) := by
  cases regions with
  | error e =>
    rw [getAllServersFromLobby] at h
    exact absurd (congrArg (fun p => p.2) h) (by simp)
  | ok rs =>
    rw [getAllServersFromLobby] at h
    cases hcoll : collectUnits (unitWork lobby pdn geoip ts) (pairsOf rs platforms) with
    | error e =>
      simp only [hcoll] at h
      exact absurd (congrArg (fun p => p.2) h) (by simp)
    | ok out =>
      simp only [hcoll] at h
      have hsv : out = servers := congrArg (fun p => p.1) h
      subst hsv
      constructor
      · exact collectUnits_createdAt (unitWork lobby pdn geoip ts)
          (fun rp out hout => unitWork_createdAt lobby pdn geoip ts rp out hout)
          (pairsOf rs platforms) out hcoll
      · intro store
        simp only [syncLocalServers, getAllServersFromLobby, hcoll]
        rfl

/-- A raw listing used by the successful-run witness. -/
def rawW : Server := { rowId := "w", address := "1.2.3.4" }

/-- A listing client returning exactly one record for every pair. -/
def lobbyOne : String → String → Except GoErr (List Server) :=
  fun _ _ => Except.ok [rawW]

/-- The enriched record `lobbyOne`'s listing becomes at snapshot time 7. -/
def srvW : LobbyServer :=
  { region := "US", createdAt := 7, rowId := "w", address := "1.2.3.4",
    continent := "EU", area := "DE", city := "Berlin" }

/-- Witness for C6: a successful one-unit run at snapshot timestamp 7. -/
theorem C6_collect_witness :
    (getAllServersFromLobby (Except.ok ["US"]) lobbyOne pdnEmpty geoFixed
        ["Steam"] 7 = ([srvW], none))
    ∧ ((∀ r ∈ [srvW], r.createdAt = 7)
      ∧ ∀ store : List LobbyServer,
          syncLocalServers store (Except.ok ["US"]) lobbyOne pdnEmpty geoFixed
              ["Steam"] 7
            = ((([srvW] : List LobbyServer).length : Int), store ++ [srvW], none)) :=
  ⟨rfl,
    C6_collect_records_share_snapshot_timestamp (Except.ok ["US"]) lobbyOne
      pdnEmpty geoFixed ["Steam"] 7 [srvW] rfl⟩

/- Expiry sweep (`ClearExpiredServers` and `LobbyRepo.RemoveServers`). -/

/-- qmgo `RemoveAll`: delete every document matching the filter, returning
the deleted count and the remaining collection.  The only deletion filter the
repository uses is `{created_at: {$lte: expiredTs}}`, modelled as the
corresponding predicate. -/
def removeAll (store : List LobbyServer) (pred : LobbyServer → Bool) :
    Int × List LobbyServer :=
  (((store.filter pred).length : Int), store.filter (fun d => !(pred d)))

/-- `LobbyRepo.RemoveServers`: `RemoveAll` with the given filter, then the
whole-collection `EstimatedCount` of what remains; returns
(deletedCount, totalAfter, store). -/
def removeServers (store : List LobbyServer) (pred : LobbyServer → Bool) :
    Int × Int × List LobbyServer :=
  let (deleted, rest) := removeAll store pred
  (deleted, estimatedCount rest, rest)

/-- `ClearExpiredServers`: `expiredTs = time.Now().Add(-ttl).UnixMilli()`
(`now` and `ttl` in epoch milliseconds, passed as parameters), deleting every
document with `created_at <= now - ttl`. -/
def clearExpiredServers (store : List LobbyServer) (now ttl : Int) :
    Int × Int × List LobbyServer :=
  removeServers store (fun d => decide (d.createdAt ≤ now - ttl))

/-- C9: the expiry sweep deletes exactly the documents with
`createdAt ≤ now − ttl` (keeping exactly those strictly newer), returns the
deleted count and the post-delete total, and on the boundary triple
`now−ttl−1`, `now−ttl`, `now−ttl+1` it deletes precisely the first two and
keeps the third. -/
theorem C9_remove_expired_boundary (now ttl : Int) (a b c : LobbyServer)
    (ha : a.createdAt = now - ttl - 1) (hb : b.createdAt = now - ttl)
    (hc : c.createdAt = now - ttl + 1) :
    (∀ store : List LobbyServer,
        (clearExpiredServers store now ttl).2.2
            = store.filter (fun d => decide (now - ttl < d.createdAt))
        ∧ (clearExpiredServers store now ttl).1
            = ((store.filter (fun d => decide (d.createdAt ≤ now - ttl))).length : Int)
        ∧ (clearExpiredServers store now ttl).2.1
            = (((clearExpiredServers store now ttl).2.2).length : Int))
    ∧ clearExpiredServers [a, b, c] now ttl = ((2 : Int), (1 : Int), [c]) := by
  constructor
  · intro store
    refine ⟨?_, rfl, rfl⟩
    show store.filter (fun d => !(decide (d.createdAt ≤ now - ttl)))
        = store.filter (fun d => decide (now - ttl < d.createdAt))
    apply List.filter_congr
    intro d _
    have hiff : (now - ttl < d.createdAt) ↔ ¬(d.createdAt ≤ now - ttl) := by omega
    simp only [hiff, decide_not]
  · have h1 : decide (a.createdAt ≤ now - ttl) = true := by
      simp only [ha, decide_eq_true_eq]
      omega
    have h2 : decide (b.createdAt ≤ now - ttl) = true := by
      simp only [hb, decide_eq_true_eq]
      omega
    have h3 : decide (c.createdAt ≤ now - ttl) = false := by
      simp only [hc, decide_eq_false_iff_not]
      omega
    simp [clearExpiredServers, removeServers, removeAll, estimatedCount,
      List.filter_cons, h1, h2, h3]

/-- Expired record one millisecond past the boundary. -/
def expA : LobbyServer := { rowId := "ea", createdAt := 89 }

/-- Record exactly at the expiry boundary. -/
def expB : LobbyServer := { rowId := "eb", createdAt := 90 }

/-- Record one millisecond inside the retention window. -/
def expC : LobbyServer := { rowId := "ec", createdAt := 91 }

/-- Witness for C9: `now = 100`, `ttl = 10`, boundary triple 89/90/91. -/
theorem C9_remove_expired_witness :
    (expA.createdAt = 100 - 10 - 1 ∧ expB.createdAt = 100 - 10
      ∧ expC.createdAt = 100 - 10 + 1)
    ∧ ((∀ store : List LobbyServer,
          (clearExpiredServers store 100 10).2.2
              = store.filter (fun d => decide (100 - 10 < d.createdAt))
          ∧ (clearExpiredServers store 100 10).1
              = ((store.filter (fun d => decide (d.createdAt ≤ 100 - 10))).length : Int)
          ∧ (clearExpiredServers store 100 10).2.1
              = (((clearExpiredServers store 100 10).2.2).length : Int))
      ∧ clearExpiredServers [expA, expB, expC] 100 10 = ((2 : Int), (1 : Int), [expC])) :=
  ⟨⟨by decide, by decide, by decide⟩,
    C9_remove_expired_boundary 100 10 expA expB expC (by decide) (by decide) (by decide)⟩
